import Mathlib

/-!
Shallow embedding of gromacs_copilot/protocols/base.py (class BaseProtocol)
and of the external collaborators it consumes, together with theorems about
its operations: workspace initialisation, mdp parameter-file generation and
simulation-stage tracking.

Python dictionaries over string keys are embedded as association lists
(insertion-ordered, first match wins on lookup), file contents as Lean
strings, and the ambient process state (current working directory, existing
directories, written files) as explicit record values threaded through the
operations.  Filesystem write failures are modelled by an explicit
environment parameter holding the error text the write would raise with.
-/

set_option autoImplicit false

namespace GromacsCopilot

/-- Modelled from the spec: the stage enumeration (SimulationStage in
gromacs_copilot.core.enums) is an external collaborator not included in the
sources; the spec describes it as "a fixed set of named phases (e.g., setup,
energy-minimization, equilibration variants, production)".  Only the SETUP
member is referenced by the sources directly. -/
inductive SimulationStage where
  | SETUP
  | ENERGY_MINIMIZATION
  | NVT_EQUILIBRATION
  | NPT_EQUILIBRATION
  | PRODUCTION
  | ANALYSIS
deriving DecidableEq

/-- Python: member.name of the enum member. -/
def SimulationStage.name : SimulationStage → String
  | .SETUP => "SETUP"
  | .ENERGY_MINIMIZATION => "ENERGY_MINIMIZATION"
  | .NVT_EQUILIBRATION => "NVT_EQUILIBRATION"
  | .NPT_EQUILIBRATION => "NPT_EQUILIBRATION"
  | .PRODUCTION => "PRODUCTION"
  | .ANALYSIS => "ANALYSIS"

/-- Iteration order of the enum, as in Python list(SimulationStage). -/
def SimulationStage.all : List SimulationStage :=
  [.SETUP, .ENERGY_MINIMIZATION, .NVT_EQUILIBRATION, .NPT_EQUILIBRATION,
   .PRODUCTION, .ANALYSIS]

/-- Python: SimulationStage[stage], name-indexed lookup; none models the
KeyError raised on a miss. -/
def stageFromName (s : String) : Option SimulationStage :=
  SimulationStage.all.find? (fun st => st.name == s)

/-- Python repr of a list of strings, as interpolated by an f-string:
for example ['SETUP', 'PRODUCTION']. -/
def pyReprStrList (l : List String) : String :=
  "[" ++ String.intercalate ", " (l.map (fun s => "\x27" ++ s ++ "\x27")) ++ "]"

/-- The mutable fields of a BaseProtocol instance: self.workspace and
self.stage (base.py lines 24-25). -/
structure ProtocolState where
  workspace : String
  stage : SimulationStage
deriving DecidableEq

/-- Ambient process/OS state touched by the constructor: the current working
directory and the set of existing directories. -/
structure OsState where
  cwd : String
  dirs : List String
deriving DecidableEq

/-- Simplified model of Python os.path.abspath: a path starting with a slash
is already absolute, otherwise it is resolved against the current working
directory (path normalisation of "." and ".." segments is not modelled; no
claim depends on it). -/
def os_path_abspath (cwd path : String) : String :=
  if path.startsWith "/" then path else cwd ++ "/" ++ path

/-- BaseProtocol.__init__ (base.py lines 17-34): resolve the workspace to an
absolute path, set the stage to SETUP, create the directory if it does not
exist (os.makedirs), and chdir into it. -/
def BaseProtocol.init (os : OsState) (workspace : String) :
    ProtocolState × OsState :=
  let ws := os_path_abspath os.cwd workspace
  let os1 := if ws ∈ os.dirs then os else { os with dirs := os.dirs ++ [ws] }
  let os2 := { os1 with cwd := ws }
  ({ workspace := ws, stage := SimulationStage.SETUP }, os2)

/-- Result record of the external shell executor (gromacs_copilot.utils.shell):
the spec fixes only that it carries a success flag and captured output. -/
structure ShellResult where
  success : Bool
  stdout : String
  stderr : String
  return_code : Int
deriving DecidableEq

/-- BaseProtocol.run_shell_command (base.py lines 36-49): a pure forwarding
call to the external shell utility, modelled by the oracle argument; the
instance fields are not touched. -/
def run_shell_command (shell : String → Bool → Bool → ShellResult)
    (self : ProtocolState) (command : String)
    (capture_output : Bool) (suppress_output : Bool) :
    ShellResult × ProtocolState :=
  (shell command capture_output suppress_output, self)

/-- Modelled from the spec: the configuration store (gromacs_copilot.config:
MDP_TYPES and DEFAULT_MDP_PARAMS) is an external collaborator not included in
the sources; the spec says it "supplies the fixed list of valid category
names and their per-category default key/value mappings".  The theorems
quantify over every such configuration. -/
structure MdpConfig where
  MDP_TYPES : List String
  DEFAULT_MDP_PARAMS : String → List (String × String)

/-- Python dict.update on insertion-ordered string-keyed dicts: every key of
d keeps its position, taking the override value when p has one; keys of p
absent from d are appended in p's order. -/
def dictUpdate (d p : List (String × String)) : List (String × String) :=
  d.map (fun kv =>
    match p.lookup kv.1 with
    | some v => (kv.1, v)
    | none => kv) ++
  p.filter (fun kv => (d.lookup kv.1).isNone)

/-- Python format spec {key:<20}: the key left-justified in a field of width
20, padded on the right with spaces (keys of 20 or more characters are kept
unchanged). -/
def padRight20 (s : String) : String :=
  s ++ String.mk (List.replicate (20 - s.length) ' ')

/-- The generated comment header line (base.py line 98). -/
def mdpHeader (mdp_type : String) : String :=
  "; " ++ mdp_type ++ ".mdp - Generated by GROMACS Copilot\n"

/-- The serialisation loop of base.py lines 99-100: one line per parameter,
key left-justified to width 20, then " = ", then the value. -/
def mdpLines : List (String × String) → String
  | [] => ""
  | kv :: rest => padRight20 kv.1 ++ " = " ++ kv.2 ++ "\n" ++ mdpLines rest

/-- The full file content built by create_mdp_file (base.py lines 98-100). -/
def mdpContent (mdp_type : String) (m : List (String × String)) : String :=
  mdpHeader mdp_type ++ mdpLines m

/-- The effective parameter mapping of create_mdp_file (base.py lines 91-95):
a copy of the category defaults, updated with the overrides when the override
dict is present and non-empty (Python: if params:). -/
def mdpEffectiveParams (cfg : MdpConfig) (mdp_type : String)
    (params : Option (List (String × String))) : List (String × String) :=
  match params with
  | none => cfg.DEFAULT_MDP_PARAMS mdp_type
  | some p =>
    if p = [] then cfg.DEFAULT_MDP_PARAMS mdp_type
    else dictUpdate (cfg.DEFAULT_MDP_PARAMS mdp_type) p

/-- Result record of create_mdp_file; the Python dict carries only the keys
relevant to its branch, modelled by optional fields. -/
structure MdpResult where
  success : Bool
  error : Option String := none
  file_path : Option String := none
  mdp_type : Option String := none
  params : Option (List (String × String)) := none
deriving DecidableEq

/-- Files on disk, newest write first; lookup returns the current content. -/
def fsWrite (fs : List (String × String)) (path content : String) :
    List (String × String) :=
  (path, content) :: fs

/-- BaseProtocol.create_mdp_file (base.py lines 71-118).  writeErr models the
environment of the write at line 105-106: some e when opening or writing the
file raises an exception with text e (caught at line 107), none when the
write succeeds.  The instance state is threaded through unchanged, as the
method never assigns to self. -/
def create_mdp_file (cfg : MdpConfig) (writeErr : Option String)
    (self : ProtocolState) (fs : List (String × String))
    (mdp_type : String) (params : Option (List (String × String))) :
    MdpResult × ProtocolState × List (String × String) :=
  if mdp_type ∈ cfg.MDP_TYPES then
    let mdp_params := mdpEffectiveParams cfg mdp_type params
    let content := mdpContent mdp_type mdp_params
    let file_path := mdp_type ++ ".mdp"
    match writeErr with
    | some e =>
      ({ success := false, error := some ("Failed to write MDP file: " ++ e) },
       self, fs)
    | none =>
      ({ success := true, file_path := some file_path,
         mdp_type := some mdp_type, params := some mdp_params },
       self, fsWrite fs file_path content)
  else
    ({ success := false,
       error := some ("Unknown MDP type: " ++ mdp_type ++
         ". Available types: " ++ pyReprStrList cfg.MDP_TYPES) },
     self, fs)

/-- Result record of set_simulation_stage. -/
structure StageResult where
  success : Bool
  stage : Option String := none
  previous_stage : Option String := none
  error : Option String := none
deriving DecidableEq

/-- BaseProtocol.set_simulation_stage (base.py lines 120-141): look the name
up in the enum; on a hit assign self.stage first (line 131) and then build
the result dict, so both the stage and the previous_stage fields read the
newly assigned member's name; on a KeyError return a failure naming the
stage and listing all member names. -/
def set_simulation_stage (self : ProtocolState) (stage : String) :
    StageResult × ProtocolState :=
  match stageFromName stage with
  | some st =>
    ({ success := true, stage := some st.name, previous_stage := some st.name },
     { self with stage := st })
  | none =>
    ({ success := false,
       error := some ("Unknown stage: " ++ stage ++ ". Available stages: " ++
         pyReprStrList (SimulationStage.all.map SimulationStage.name)) },
     self)

/-! Re-reading a written parameter file.  The spec's round-trip property reads
the file back "as key/value pairs (splitting each non-comment line on ' = '
and trimming padding)"; the definitions below follow those words (they have
no counterpart in the sources). -/

/-- Split a character list at every occurrence of the separator; like Python
str.split, a trailing separator yields a trailing empty chunk. -/
def splitOnChar (c : Char) : List Char → List (List Char)
  | [] => [[]]
  | x :: xs =>
    if x = c then [] :: splitOnChar c xs
    else
      match splitOnChar c xs with
      | [] => [[x]]
      | y :: ys => (x :: y) :: ys

/-- Whether the list starts with the three-character separator " = ". -/
def startsWithEqSep (l : List Char) : Bool :=
  match l with
  | ' ' :: '=' :: ' ' :: _ => true
  | _ => false

/-- Split at the first occurrence of " = ": the characters before it and the
characters after it, or none when the separator does not occur. -/
def splitAtEqSep : List Char → Option (List Char × List Char)
  | [] => none
  | x :: xs =>
    if startsWithEqSep (x :: xs) then some ([], xs.drop 2)
    else
      match splitAtEqSep xs with
      | some (a, b) => some (x :: a, b)
      | none => none

/-- Remove the trailing space padding from a recovered key. -/
def trimTrailSpaces (l : List Char) : List Char :=
  (l.reverse.dropWhile (fun c => c = ' ')).reverse

/-- Read one line back as a key/value pair: comment lines (leading
semicolon), empty lines and lines without " = " carry no pair. -/
def readMdpLine (l : List Char) : Option (String × String) :=
  match l with
  | [] => none
  | c :: _ =>
    if c = ';' then none
    else
      match splitAtEqSep l with
      | some (k, v) => some (String.mk (trimTrailSpaces k), String.mk v)
      | none => none

/-- Read a whole parameter file back as key/value pairs. -/
def readMdpPairs (s : String) : List (String × String) :=
  (splitOnChar '\n' s.data).filterMap readMdpLine

/-- The line format asserted by claim C1, taken at its words: the key padded
on the LEFT to width 20 (that is, right-justified).  The source instead uses
the format spec {key:<20}, which left-justifies. -/
def padLeft20 (s : String) : String :=
  String.mk (List.replicate (20 - s.length) ' ') ++ s

/-- File content under the left-padded reading of claim C1. -/
def mdpContentLeftPad (mdp_type : String) (m : List (String × String)) :
    String :=
  mdpHeader mdp_type ++
    String.join (m.map (fun kv => padLeft20 kv.1 ++ " = " ++ kv.2 ++ "\n"))

/-- Modelled from the spec: a concrete configuration instance used only to
evaluate the theorems at concrete inputs; the category names are the ones the
source docstring lists ("ions, em, nvt, npt, md"), the default values are
illustrative (the real DEFAULT_MDP_PARAMS is not in the sources, and every
theorem below quantifies over the configuration). -/
def demoConfig : MdpConfig where
  MDP_TYPES := ["ions", "em", "nvt", "npt", "md"]
  DEFAULT_MDP_PARAMS := fun t =>
    if t = "em" then
      [("integrator", "steep"), ("emtol", "1000.0"), ("nsteps", "50000")]
    else if t = "ions" then
      [("integrator", "steep"), ("nsteps", "5000")]
    else
      [("integrator", "md"), ("nsteps", "50000"), ("dt", "0.002")]

/-- A concrete protocol state used to evaluate the theorems. -/
def demoState : ProtocolState where
  workspace := "/md_workspace"
  stage := SimulationStage.SETUP

/-! Theorems. -/

/-- C10: immediately after construction the protocol's current stage is the
setup stage (SimulationStage.SETUP), before any call to
set_simulation_stage. -/
theorem C10_init_stage_setup (os : OsState) (workspace : String) :
    (BaseProtocol.init os workspace).1.stage = SimulationStage.SETUP := rfl

/-- C8: after constructing a protocol the stored workspace equals the
absolute resolution of the given path, that directory exists afterwards (it
is created if it was absent), and the process's current working directory
has been changed to it. -/
theorem C8_init_workspace (os : OsState) (workspace : String) :
    (BaseProtocol.init os workspace).1.workspace =
      os_path_abspath os.cwd workspace ∧
    (BaseProtocol.init os workspace).1.workspace ∈
      (BaseProtocol.init os workspace).2.dirs ∧
    (BaseProtocol.init os workspace).2.cwd =
      (BaseProtocol.init os workspace).1.workspace := by
  refine ⟨rfl, ?_, rfl⟩
  show os_path_abspath os.cwd workspace ∈
    (if os_path_abspath os.cwd workspace ∈ os.dirs then os
     else { os with dirs := os.dirs ++ [os_path_abspath os.cwd workspace] }).dirs
  split
  · assumption
  · exact List.mem_append_right _ (List.mem_singleton.mpr rfl)

/-- C4: for a name that is a member of the stage enumeration,
set_simulation_stage sets that member as the current stage and returns
success carrying that name as the new stage; for a name that is not a
member, it returns a failure listing all valid stage names and the current
stage is unchanged. -/
theorem C4_set_stage (self : ProtocolState) (s : String) :
    (∀ st : SimulationStage, stageFromName s = some st →
      st.name = s ∧
      set_simulation_stage self s =
        ({ success := true, stage := some s, previous_stage := some s },
         { self with stage := st })) ∧
    (stageFromName s = none →
      set_simulation_stage self s =
        ({ success := false,
           error := some ("Unknown stage: " ++ s ++ ". Available stages: " ++
             pyReprStrList (SimulationStage.all.map SimulationStage.name)) },
         self)) := by
  constructor
  · intro st h
    have hname : st.name = s := by
      have hfind := List.find?_some h
      exact eq_of_beq hfind
    refine ⟨hname, ?_⟩
    unfold set_simulation_stage
    rw [h]
    subst hname
    rfl
  · intro h
    unfold set_simulation_stage
    rw [h]

/-- Witness for C4 at a concrete valid and a concrete invalid stage name. -/
theorem C4_set_stage_witness :
    set_simulation_stage demoState "PRODUCTION" =
      ({ success := true, stage := some "PRODUCTION",
         previous_stage := some "PRODUCTION" },
       { demoState with stage := SimulationStage.PRODUCTION }) ∧
    set_simulation_stage demoState "MELTDOWN" =
      ({ success := false,
         error := some ("Unknown stage: MELTDOWN. Available stages: " ++
           "[\x27SETUP\x27, \x27ENERGY_MINIMIZATION\x27, \x27NVT_EQUILIBRATION\x27, " ++
           "\x27NPT_EQUILIBRATION\x27, \x27PRODUCTION\x27, \x27ANALYSIS\x27]") },
       demoState) :=
  ⟨((C4_set_stage demoState "PRODUCTION").1 SimulationStage.PRODUCTION
      (by decide)).2,
   ((C4_set_stage demoState "MELTDOWN").2 (by decide)).trans (by decide)⟩

/-- C5: on a successful call, the previous_stage field of the result equals
the newly set stage's name (and so differs from the prior stage's name
whenever the two names differ): the setter assigns self.stage first and then
reads it back for both fields. -/
theorem C5_previous_stage_echoes_new (self : ProtocolState) (s : String)
    (st : SimulationStage) (h : stageFromName s = some st) :
    (set_simulation_stage self s).1.previous_stage = some st.name ∧
    (set_simulation_stage self s).1.previous_stage =
      (set_simulation_stage self s).1.stage ∧
    (self.stage.name ≠ st.name →
      (set_simulation_stage self s).1.previous_stage ≠
        some self.stage.name) := by
  unfold set_simulation_stage
  rw [h]
  exact ⟨rfl, rfl, fun hne hc => hne (Option.some.inj hc).symm⟩

/-- Witness for C5: from SETUP, setting PRODUCTION reports previous_stage
PRODUCTION, not SETUP. -/
theorem C5_previous_stage_witness :
    (set_simulation_stage demoState "PRODUCTION").1.previous_stage =
      some "PRODUCTION" ∧
    (set_simulation_stage demoState "PRODUCTION").1.previous_stage ≠
      some demoState.stage.name := by
  have h := C5_previous_stage_echoes_new demoState "PRODUCTION"
    SimulationStage.PRODUCTION (by decide)
  exact ⟨h.1, h.2.2 (by decide)⟩

/-- C3: for a category name outside the allow-list, create_mdp_file returns
a failure whose message names the invalid category and lists the valid ones,
the instance state is untouched and no file is written. -/
theorem C3_unknown_type_fails (cfg : MdpConfig) (writeErr : Option String)
    (self : ProtocolState) (fs : List (String × String)) (mdp_type : String)
    (params : Option (List (String × String)))
    (h : mdp_type ∉ cfg.MDP_TYPES) :
    create_mdp_file cfg writeErr self fs mdp_type params =
      ({ success := false,
         error := some ("Unknown MDP type: " ++ mdp_type ++
           ". Available types: " ++ pyReprStrList cfg.MDP_TYPES) },
       self, fs) := by
  unfold create_mdp_file
  rw [if_neg h]

/-- Witness for C3 at a concrete unknown category. -/
theorem C3_unknown_type_witness :
    "bogus" ∉ demoConfig.MDP_TYPES ∧
    create_mdp_file demoConfig none demoState [] "bogus" none =
      ({ success := false,
         error := some ("Unknown MDP type: bogus. Available types: " ++
           "[\x27ions\x27, \x27em\x27, \x27nvt\x27, \x27npt\x27, \x27md\x27]") },
       demoState, []) :=
  ⟨by decide,
   (C3_unknown_type_fails demoConfig none demoState [] "bogus" none
      (by decide)).trans (by decide)⟩

/-- C7: for a known category, when the file write raises, create_mdp_file
returns a failure whose error field carries the underlying error text
(prefixed with "Failed to write MDP file: "), no state changes, and no
exception escapes (the operation is total). -/
theorem C7_write_failure (cfg : MdpConfig) (self : ProtocolState)
    (fs : List (String × String)) (mdp_type : String)
    (params : Option (List (String × String))) (e : String)
    (h : mdp_type ∈ cfg.MDP_TYPES) :
    create_mdp_file cfg (some e) self fs mdp_type params =
      ({ success := false,
         error := some ("Failed to write MDP file: " ++ e) },
       self, fs) := by
  unfold create_mdp_file
  rw [if_pos h]

/-- Witness for C7 at a concrete category and error text. -/
theorem C7_write_failure_witness :
    "em" ∈ demoConfig.MDP_TYPES ∧
    create_mdp_file demoConfig (some "Permission denied") demoState [] "em"
        none =
      ({ success := false,
         error := some "Failed to write MDP file: Permission denied" },
       demoState, []) :=
  ⟨by decide,
   (C7_write_failure demoConfig demoState [] "em" none "Permission denied"
      (by decide)).trans (by decide)⟩

/-- C9: neither create_mdp_file nor run_shell_command touches the instance
fields: the protocol state (both its stage and its workspace) comes back
unchanged for every input, so the stage is mutated only by
set_simulation_stage. -/
theorem C9_frame (cfg : MdpConfig) (writeErr : Option String)
    (self : ProtocolState) (fs : List (String × String)) (mdp_type : String)
    (params : Option (List (String × String)))
    (shell : String → Bool → Bool → ShellResult) (command : String)
    (capture_output suppress_output : Bool) :
    (create_mdp_file cfg writeErr self fs mdp_type params).2.1 = self ∧
    (run_shell_command shell self command capture_output
      suppress_output).2 = self := by
  constructor
  · unfold create_mdp_file
    split
    · cases writeErr <;> rfl
    · rfl
  · rfl

/-- Lookup distributes over list append, preferring the left list. -/
theorem lookup_append (l₁ l₂ : List (String × String)) (k : String) :
    (l₁ ++ l₂).lookup k =
      match l₁.lookup k with
      | some v => some v
      | none => l₂.lookup k := by
  induction l₁ with
  | nil => rfl
  | cons kv rest ih =>
    obtain ⟨a, b⟩ := kv
    rw [List.cons_append, List.lookup_cons, List.lookup_cons]
    cases k == a
    · exact ih
    · rfl

/-- Lookup in the override pass over the defaults: a key present in the
defaults resolves to its override value when one exists, otherwise to its
default value. -/
theorem lookup_map_override (d p : List (String × String)) (k : String) :
    (d.map (fun kv =>
      match p.lookup kv.1 with
      | some v => (kv.1, v)
      | none => kv)).lookup k =
      match d.lookup k with
      | some v =>
        match p.lookup k with
        | some w => some w
        | none => some v
      | none => none := by
  induction d with
  | nil => rfl
  | cons kv rest ih =>
    obtain ⟨a, b⟩ := kv
    rw [List.map_cons]
    cases hp : p.lookup a
    · rw [List.lookup_cons, List.lookup_cons]
      cases hk : k == a
      · exact ih
      · have : k = a := eq_of_beq hk
        subst this
        rw [hp]
    · rw [List.lookup_cons, List.lookup_cons]
      cases hk : k == a
      · exact ih
      · have : k = a := eq_of_beq hk
        subst this
        rw [hp]

/-- Lookup of a key absent from the defaults passes through the filter that
keeps exactly the override entries whose key is absent from the defaults. -/
theorem lookup_filter_new (d p : List (String × String)) (k : String)
    (h : d.lookup k = none) :
    (p.filter (fun kv => (d.lookup kv.1).isNone)).lookup k = p.lookup k := by
  induction p with
  | nil => rfl
  | cons kv rest ih =>
    obtain ⟨a, b⟩ := kv
    rw [List.lookup_cons]
    cases hk : k == a
    · rw [List.filter_cons]
      cases hda : (d.lookup a).isNone
      · rw [if_neg (by simp [hda])]
        exact ih
      · rw [if_pos (by simp [hda]), List.lookup_cons, hk]
        exact ih
    · have : k = a := eq_of_beq hk
      subst this
      rw [List.filter_cons, if_pos (by simp [h]), List.lookup_cons, hk]

/-- The Python dict.update semantics, key by key: the merged mapping
resolves every key to its override value when the overrides carry one and to
its default value otherwise. -/
theorem dictUpdate_lookup (d p : List (String × String)) (k : String) :
    (dictUpdate d p).lookup k =
      match p.lookup k with
      | some v => some v
      | none => d.lookup k := by
  unfold dictUpdate
  rw [lookup_append, lookup_map_override]
  cases hd : d.lookup k
  · rw [lookup_filter_new d p k hd]
    cases hp : p.lookup k <;> rfl
  · cases hp : p.lookup k <;> rfl

/-- C2: for a known category, the effective mapping reported in the success
result of create_mdp_file resolves overridden keys to the override value,
keeps the default value of every key the overrides do not mention, and
contains every override key absent from the defaults. -/
theorem C2_override_merge (cfg : MdpConfig) (self : ProtocolState)
    (fs : List (String × String)) (mdp_type : String)
    (p : List (String × String)) (h : mdp_type ∈ cfg.MDP_TYPES) :
    ((create_mdp_file cfg none self fs mdp_type (some p)).1).success = true ∧
    ((create_mdp_file cfg none self fs mdp_type (some p)).1).params =
      some (mdpEffectiveParams cfg mdp_type (some p)) ∧
    ∀ k : String,
      (mdpEffectiveParams cfg mdp_type (some p)).lookup k =
        match p.lookup k with
        | some v => some v
        | none => (cfg.DEFAULT_MDP_PARAMS mdp_type).lookup k := by
  refine ⟨?_, ?_, ?_⟩
  · unfold create_mdp_file
    rw [if_pos h]
  · unfold create_mdp_file
    rw [if_pos h]
  · intro k
    by_cases hp : p = []
    · subst hp
      rfl
    · have he : mdpEffectiveParams cfg mdp_type (some p) =
          dictUpdate (cfg.DEFAULT_MDP_PARAMS mdp_type) p := by
        show (if p = [] then cfg.DEFAULT_MDP_PARAMS mdp_type
          else dictUpdate (cfg.DEFAULT_MDP_PARAMS mdp_type) p) = _
        rw [if_neg hp]
      rw [he]
      exact dictUpdate_lookup _ p k

/-- Witness for C2: overriding one existing key and adding one new key on a
concrete configuration. -/
theorem C2_override_merge_witness :
    "em" ∈ demoConfig.MDP_TYPES ∧
    ((create_mdp_file demoConfig none demoState [] "em"
        (some [("emtol", "500"), ("rvdw", "1.2")])).1).params =
      some [("integrator", "steep"), ("emtol", "500"), ("nsteps", "50000"),
            ("rvdw", "1.2")] ∧
    (mdpEffectiveParams demoConfig "em"
        (some [("emtol", "500"), ("rvdw", "1.2")])).lookup "nsteps" =
      some "50000" := by
  have h := C2_override_merge demoConfig demoState [] "em"
    [("emtol", "500"), ("rvdw", "1.2")] (by decide)
  exact ⟨by decide, h.2.1.trans (by decide), (h.2.2 "nsteps").trans (by decide)⟩

/-- String.join splits off its head summand. -/
theorem string_join_cons (a : String) (l : List String) :
    String.join (a :: l) = a ++ String.join l := by
  apply String.ext
  rw [String.join_eq, String.join_eq, String.data_append]
  show (a.data :: l.map String.data).flatten = _
  rw [List.flatten_cons]

/-- The serialisation loop written as a join of formatted lines. -/
theorem mdpLines_eq_join (m : List (String × String)) :
    mdpLines m = String.join (m.map (fun kv =>
      kv.1 ++ String.mk (List.replicate (20 - kv.1.length) ' ') ++ " = " ++
        kv.2 ++ "\n")) := by
  induction m with
  | nil => rfl
  | cons kv rest ih =>
    rw [List.map_cons, string_join_cons, ← ih]
    show padRight20 kv.1 ++ " = " ++ kv.2 ++ "\n" ++ mdpLines rest = _
    rfl

/-- Counterexample to C1 as stated: on a concrete known category with no
overrides, the file content written by create_mdp_file is not the header
followed by the keys left-padded (right-justified) to width 20; the source
left-justifies the key. -/
theorem C1_counterexample :
    ((create_mdp_file demoConfig none demoState [] "em" none).2.2).lookup
        "em.mdp" ≠
      some (mdpContentLeftPad "em" (demoConfig.DEFAULT_MDP_PARAMS "em")) := by
  decide

/-- C1 (amended: the key is left-justified, padded on the right with spaces
to width 20): for every known category, create_mdp_file with no overrides
succeeds and writes a file whose content is the generated comment header
line followed by exactly the category's default entries, one line each, the
key padded on the right to width 20, then " = ", then the value. -/
theorem C1_default_content (cfg : MdpConfig) (self : ProtocolState)
    (fs : List (String × String)) (mdp_type : String)
    (h : mdp_type ∈ cfg.MDP_TYPES) :
    ((create_mdp_file cfg none self fs mdp_type none).1).success = true ∧
    ((create_mdp_file cfg none self fs mdp_type none).2.2).lookup
        (mdp_type ++ ".mdp") =
      some ("; " ++ mdp_type ++ ".mdp - Generated by GROMACS Copilot\n" ++
        String.join ((cfg.DEFAULT_MDP_PARAMS mdp_type).map (fun kv =>
          kv.1 ++ String.mk (List.replicate (20 - kv.1.length) ' ') ++
            " = " ++ kv.2 ++ "\n"))) := by
  constructor
  · unfold create_mdp_file
    rw [if_pos h]
  · unfold create_mdp_file
    rw [if_pos h]
    show List.lookup (mdp_type ++ ".mdp")
      (fsWrite fs (mdp_type ++ ".mdp")
        (mdpContent mdp_type (mdpEffectiveParams cfg mdp_type none))) = _
    unfold fsWrite
    rw [List.lookup_cons_self]
    show some (mdpHeader mdp_type ++
      mdpLines (cfg.DEFAULT_MDP_PARAMS mdp_type)) = _
    rw [mdpLines_eq_join]
    rfl

/-- Witness for C1's amended theorem at a concrete category, with the
resulting file content spelled out. -/
theorem C1_default_content_witness :
    "ions" ∈ demoConfig.MDP_TYPES ∧
    ((create_mdp_file demoConfig none demoState [] "ions" none).2.2).lookup
        "ions.mdp" =
      some ("; ions.mdp - Generated by GROMACS Copilot\n" ++
        "integrator           = steep\n" ++
        "nsteps               = 5000\n") := by
  have h := C1_default_content demoConfig demoState [] "ions" (by decide)
  exact ⟨by decide, h.2.trans (by decide)⟩

/-- Well-formedness of one written key/value pair under which the textual
round trip is inverse: the key contains no equals sign and no newline, does
not end in a space (that would be absorbed into the padding) and does not
start with a semicolon (that would read back as a comment), and the value
contains no newline. -/
abbrev goodPair (kv : String × String) : Prop :=
  '=' ∉ kv.1.data ∧ '\n' ∉ kv.1.data ∧ kv.1.data.getLast? ≠ some ' ' ∧
  kv.1.data.head? ≠ some ';' ∧ '\n' ∉ kv.2.data

/-- Splitting at a separator occurrence whose left part is separator-free. -/
theorem splitOnChar_append (c : Char) (a b : List Char) (h : c ∉ a) :
    splitOnChar c (a ++ c :: b) = a :: splitOnChar c b := by
  induction a with
  | nil =>
    show splitOnChar c (c :: b) = [] :: splitOnChar c b
    simp only [splitOnChar]
    rw [if_pos trivial]
  | cons x xs ih =>
    have hx : x ≠ c := fun he => h (he ▸ List.mem_cons_self x xs)
    have hxs : c ∉ xs := fun hc => h (List.mem_cons_of_mem x hc)
    show splitOnChar c (x :: (xs ++ c :: b)) = (x :: xs) :: splitOnChar c b
    simp only [splitOnChar]
    rw [if_neg hx, ih hxs]

/-- Splitting at the first " = " when the part before it has no equals
sign. -/
theorem splitAtEqSep_append (a b : List Char) (h : '=' ∉ a) :
    splitAtEqSep (a ++ ' ' :: '=' :: ' ' :: b) = some (a, b) := by
  induction a with
  | nil => rfl
  | cons x xs ih =>
    have hxs : '=' ∉ xs := fun hc => h (List.mem_cons_of_mem x hc)
    have hsw : startsWithEqSep (x :: (xs ++ ' ' :: '=' :: ' ' :: b)) =
        false := by
      cases xs with
      | nil =>
        simp [startsWithEqSep, show (' ' == '=') = false from rfl]
      | cons y ys =>
        have hy : y ≠ '=' :=
          fun he => h (he ▸ List.mem_cons_of_mem x (List.mem_cons_self y ys))
        cases ys with
        | nil => simp [startsWithEqSep, hy]
        | cons z zs => simp [startsWithEqSep, hy]
    show splitAtEqSep (x :: (xs ++ ' ' :: '=' :: ' ' :: b)) = _
    unfold splitAtEqSep
    rw [if_neg (by simp [hsw]), ih hxs]

/-- Trimming the space padding recovers a key that does not end in a
space. -/
theorem trimTrailSpaces_pad (a : List Char) (n : Nat)
    (h : a.getLast? ≠ some ' ') :
    trimTrailSpaces (a ++ List.replicate n ' ') = a := by
  unfold trimTrailSpaces
  rw [List.reverse_append, List.reverse_replicate,
    List.dropWhile_append_of_pos
      (fun x hx => by simp [List.eq_of_mem_replicate hx])]
  cases har : a.reverse with
  | nil =>
    have : a = [] := by simpa using congrArg List.reverse har
    simp [this]
  | cons x xs =>
    have hx : x ≠ ' ' := by
      intro he
      apply h
      rw [← List.head?_reverse, har, he]
      rfl
    rw [List.dropWhile_cons_of_neg (by simp [hx]), ← har,
      List.reverse_reverse]

/-- Structure eta for strings. -/
theorem string_mk_data (s : String) : String.mk s.data = s := rfl

/-- Reading one line whose split at " = " is known. -/
theorem readMdpLine_of_parts (c : Char) (rest : List Char) (hc : c ≠ ';')
    (k v : List Char) (hsplit : splitAtEqSep (c :: rest) = some (k, v)) :
    readMdpLine (c :: rest) =
      some (String.mk (trimTrailSpaces k), String.mk v) := by
  simp only [readMdpLine]
  rw [if_neg hc, hsplit]

/-- Reading back a line of the shape key-part, separator, value-part. -/
theorem readMdpLine_keyval (a v : List Char) (ha : a ≠ [])
    (hc : a.head? ≠ some ';') (he : '=' ∉ a) :
    readMdpLine (a ++ ' ' :: '=' :: ' ' :: v) =
      some (String.mk (trimTrailSpaces a), String.mk v) := by
  cases a with
  | nil => exact absurd rfl ha
  | cons c rest =>
    have hcne : c ≠ ';' := fun he2 => hc (by rw [he2]; rfl)
    rw [List.cons_append]
    exact readMdpLine_of_parts c _ hcne _ _
      (by rw [← List.cons_append]; exact splitAtEqSep_append _ _ he)

/-- Reading back one serialised parameter line recovers the pair exactly,
for a well-formed key. -/
theorem readMdpLine_line (k v : String) (hk1 : '=' ∉ k.data)
    (hk3 : k.data.getLast? ≠ some ' ') (hk4 : k.data.head? ≠ some ';') :
    readMdpLine ((padRight20 k ++ " = " ++ v).data) = some (k, v) := by
  have hdata : (padRight20 k ++ " = " ++ v).data =
      (k.data ++ List.replicate (20 - k.data.length) ' ') ++
        (' ' :: '=' :: ' ' :: v.data) := by
    rw [String.data_append, String.data_append]
    rw [show (padRight20 k).data =
      k.data ++ List.replicate (20 - k.data.length) ' ' from rfl]
    rw [show (" = " : String).data = [' ', '=', ' '] from rfl]
    rw [List.append_assoc]
    rfl
  have ha : k.data ++ List.replicate (20 - k.data.length) ' ' ≠ [] := by
    intro hnil
    rcases List.append_eq_nil.mp hnil with ⟨h1, h2⟩
    rw [h1] at h2
    simp at h2
  have hc : (k.data ++ List.replicate (20 - k.data.length) ' ').head? ≠
      some ';' := by
    cases hkd : k.data with
    | nil => decide
    | cons c cs =>
      intro hcontra
      apply hk4
      rw [hkd]
      exact hcontra
  have he : '=' ∉ k.data ++ List.replicate (20 - k.data.length) ' ' := by
    intro hmem
    rcases List.mem_append.mp hmem with h1 | h2
    · exact hk1 h1
    · exact absurd (List.eq_of_mem_replicate h2) (by decide)
  calc readMdpLine ((padRight20 k ++ " = " ++ v).data)
      = some (String.mk
          (trimTrailSpaces (k.data ++ List.replicate (20 - k.data.length) ' ')),
        String.mk v.data) := by
        rw [hdata]; exact readMdpLine_keyval _ _ ha hc he
    _ = some (k, v) := by
        rw [trimTrailSpaces_pad _ _ hk3, string_mk_data, string_mk_data]

/-- Character-level decomposition of one serialised line. -/
theorem line_data (k v : String) :
    (padRight20 k ++ " = " ++ v).data =
      (k.data ++ List.replicate (20 - k.data.length) ' ') ++
        (' ' :: '=' :: ' ' :: v.data) := by
  rw [String.data_append, String.data_append]
  rw [show (padRight20 k).data =
    k.data ++ List.replicate (20 - k.data.length) ' ' from rfl]
  rw [show (" = " : String).data = [' ', '=', ' '] from rfl]
  rw [List.append_assoc]
  rfl

/-- A serialised line of a newline-free pair contains no newline. -/
theorem nl_not_in_line (k v : String) (hk : '\n' ∉ k.data)
    (hv : '\n' ∉ v.data) : '\n' ∉ (padRight20 k ++ " = " ++ v).data := by
  intro hmem
  rw [line_data] at hmem
  rcases List.mem_append.mp hmem with h1 | h2
  · rcases List.mem_append.mp h1 with h3 | h4
    · exact hk h3
    · exact absurd (List.eq_of_mem_replicate h4) (by decide)
  · simp only [List.mem_cons] at h2
    rcases h2 with h | h | h | h
    · exact absurd h (by decide)
    · exact absurd h (by decide)
    · exact absurd h (by decide)
    · exact hv h

/-- Splitting the serialised body at newlines recovers the individual lines
(plus the empty chunk after the final newline). -/
theorem splitOnChar_mdpLines (m : List (String × String))
    (hm : ∀ kv ∈ m, '\n' ∉ (padRight20 kv.1 ++ " = " ++ kv.2).data) :
    splitOnChar '\n' (mdpLines m).data =
      m.map (fun kv => (padRight20 kv.1 ++ " = " ++ kv.2).data) ++ [[]] := by
  induction m with
  | nil => rfl
  | cons kv rest ih =>
    have hdat : (mdpLines (kv :: rest)).data =
        (padRight20 kv.1 ++ " = " ++ kv.2).data ++
          '\n' :: (mdpLines rest).data := by
      show (padRight20 kv.1 ++ " = " ++ kv.2 ++ "\n" ++ mdpLines rest).data = _
      simp [String.data_append, List.append_assoc,
        show ("\n" : String).data = ['\n'] from rfl]
    rw [hdat, splitOnChar_append _ _ _ (hm kv (List.mem_cons_self kv rest)),
      ih (fun kv2 h2 => hm kv2 (List.mem_cons_of_mem kv h2)), List.map_cons,
      List.cons_append]

/-- Splitting the whole generated file at newlines: the header line, then
the serialised lines, then the empty chunk after the final newline. -/
theorem splitOnChar_content (t : String) (m : List (String × String))
    (ht : '\n' ∉ t.data)
    (hm : ∀ kv ∈ m, '\n' ∉ (padRight20 kv.1 ++ " = " ++ kv.2).data) :
    splitOnChar '\n' (mdpContent t m).data =
      (';' :: ' ' :: (t.data ++
        (".mdp - Generated by GROMACS Copilot" : String).data)) ::
        (m.map (fun kv => (padRight20 kv.1 ++ " = " ++ kv.2).data) ++ [[]]) := by
  have hcd : (mdpContent t m).data =
      (';' :: ' ' :: (t.data ++
        (".mdp - Generated by GROMACS Copilot" : String).data)) ++
        '\n' :: (mdpLines m).data := by
    show (mdpHeader t ++ mdpLines m).data = _
    simp [mdpHeader, String.data_append, List.append_assoc]
  have hb : '\n' ∉ (';' :: ' ' :: (t.data ++
      (".mdp - Generated by GROMACS Copilot" : String).data)) := by
    intro hmem
    simp only [List.mem_cons, List.mem_append] at hmem
    rcases hmem with h | h | h | h
    · exact absurd h (by decide)
    · exact absurd h (by decide)
    · exact ht h
    · exact absurd h (by decide)
  rw [hcd, splitOnChar_append _ _ _ hb, splitOnChar_mdpLines m hm]

/-- Reading back the serialised lines recovers the pairs in order. -/
theorem filterMap_lines (m : List (String × String))
    (hm : ∀ kv ∈ m, goodPair kv) :
    List.filterMap readMdpLine
      (m.map (fun kv => (padRight20 kv.1 ++ " = " ++ kv.2).data)) = m := by
  induction m with
  | nil => rfl
  | cons kv rest ih =>
    obtain ⟨h1, _, h3, h4, _⟩ := hm kv (List.mem_cons_self kv rest)
    rw [List.map_cons, List.filterMap_cons,
      readMdpLine_line kv.1 kv.2 h1 h3 h4,
      ih (fun kv2 hh => hm kv2 (List.mem_cons_of_mem kv hh))]

/-- Round trip of the serialiser against the spec's reader, for well-formed
pairs and a newline-free category name. -/
theorem readMdpPairs_mdpContent (t : String) (m : List (String × String))
    (ht : '\n' ∉ t.data) (hm : ∀ kv ∈ m, goodPair kv) :
    readMdpPairs (mdpContent t m) = m := by
  unfold readMdpPairs
  rw [splitOnChar_content t m ht
    (fun kv hh => nl_not_in_line kv.1 kv.2 (hm kv hh).2.1 (hm kv hh).2.2.2.2)]
  rw [List.filterMap_cons]
  rw [show readMdpLine (';' :: ' ' :: (t.data ++
    (".mdp - Generated by GROMACS Copilot" : String).data)) = none from rfl]
  rw [List.filterMap_append, filterMap_lines m hm]
  rw [show List.filterMap readMdpLine [[]] = [] from rfl, List.append_nil]

/-- Counterexample to C6 as stated: an override value containing a newline
(reachable, since override values are arbitrary) breaks the round trip — the
value is cut at the newline and its remainder is dropped as an unparsable
line. -/
theorem C6_counterexample :
    readMdpPairs (mdpContent "md"
        (mdpEffectiveParams demoConfig "md" (some [("a", "x\ny")]))) ≠
      mdpEffectiveParams demoConfig "md" (some [("a", "x\ny")]) := by
  decide

/-- C6 (amended: restricted to well-formed pairs — keys without an equals
sign or newline, not ending in a space and not starting with a semicolon,
values without a newline — and a newline-free category name): the file
written by create_mdp_file re-read as key/value pairs reconstructs exactly
the effective parameter mapping used to generate it. -/
theorem C6_roundtrip (cfg : MdpConfig) (self : ProtocolState)
    (fs : List (String × String)) (mdp_type : String)
    (params : Option (List (String × String)))
    (h : mdp_type ∈ cfg.MDP_TYPES) (ht : '\n' ∉ mdp_type.data)
    (hm : ∀ kv ∈ mdpEffectiveParams cfg mdp_type params, goodPair kv) :
    ((create_mdp_file cfg none self fs mdp_type params).2.2).lookup
        (mdp_type ++ ".mdp") =
      some (mdpContent mdp_type (mdpEffectiveParams cfg mdp_type params)) ∧
    readMdpPairs
        (mdpContent mdp_type (mdpEffectiveParams cfg mdp_type params)) =
      mdpEffectiveParams cfg mdp_type params := by
  constructor
  · unfold create_mdp_file
    rw [if_pos h]
    show List.lookup (mdp_type ++ ".mdp")
      (fsWrite fs (mdp_type ++ ".mdp")
        (mdpContent mdp_type (mdpEffectiveParams cfg mdp_type params))) = _
    unfold fsWrite
    rw [List.lookup_cons_self]
  · exact readMdpPairs_mdpContent mdp_type
      (mdpEffectiveParams cfg mdp_type params) ht hm

/-- Witness for C6's amended theorem at a concrete category and override. -/
theorem C6_roundtrip_witness :
    ((create_mdp_file demoConfig none demoState [] "em"
        (some [("emtol", "500")])).2.2).lookup "em.mdp" =
      some (mdpContent "em"
        (mdpEffectiveParams demoConfig "em" (some [("emtol", "500")]))) ∧
    readMdpPairs (mdpContent "em"
        (mdpEffectiveParams demoConfig "em" (some [("emtol", "500")]))) =
      mdpEffectiveParams demoConfig "em" (some [("emtol", "500")]) :=
  C6_roundtrip demoConfig demoState [] "em" (some [("emtol", "500")])
    (by decide) (by decide) (by decide)

end GromacsCopilot
